import Mathlib

/-!
Shallow embedding of the Gecko backend's Activity Lifecycle & Resource Ledger
Engine (src/backend/services/activityService.js, src/backend/services/invoiceService.js,
src/backend/controllers/activities.js, src/backend/controllers/contracts.js,
src/backend/controllers/invoices.js, src/backend/lib/validations.js), together
with theorems settling the spec's claims about it.

Modelling conventions:
- Entity ids (Prisma uuid strings) are abstracted to `Nat`.
- JS numbers (epoch-millisecond timestamps, hours, money) are modelled as
  exact rationals (`Rat`); `scheduledStart`/`scheduledEnd` are epoch milliseconds.
- A nullable JSON field is an `Option`; a field of a request body that may be
  absent altogether is an outer `Option` around the nullable value, matching
  zod's `.optional().nullable()` and Prisma's absent-vs-null distinction.
- Every fallible operation returns `Except AppErr`, and returns the updated
  store only on success: the JS code raises before performing any write in
  each error path modelled here, so an `error` result leaves the store as it was.
- An unhandled JS `TypeError` (null dereference) is `AppErr.internal`, which the
  error-handling middleware maps to a 500, distinct from every business failure.
-/

namespace Gecko

/-- Activity statuses, `ActivityStatus` enum of the Prisma schema. -/
inductive ActivityStatus where
  | UNASSIGNED
  | SCHEDULED
  | IN_PROGRESS
  | DONE
  | VERIFIED
  | INVOICED
deriving DecidableEq, Repr

/-- Invoice kinds, `InvoiceType` enum of the Prisma schema. -/
inductive InvoiceType where
  | CLIENT_BILL
  | WORKER_PAYOUT
deriving DecidableEq, Repr

/-- Invoice statuses, `InvoiceStatus` enum of the Prisma schema. -/
inductive InvoiceStatus where
  | DRAFT
  | SENT
  | PAID
deriving DecidableEq, Repr

/-- Client row (prisma `Client`): billingRate is nullable. -/
structure Client where
  id : Nat
  name : String
  billingRate : Option Rat
deriving DecidableEq, Repr

/-- Worker row (prisma `User` with role WORKER). -/
structure Worker where
  id : Nat
  name : String
  hourlyRate : Rat
deriving DecidableEq, Repr

/-- Contract row (prisma `Contract`), the fields the ledger reads. -/
structure Contract where
  id : Nat
  clientId : Nat
  totalHours : Rat
deriving DecidableEq, Repr

/-- Activity row (prisma `Activity`). Times are epoch milliseconds. -/
structure Activity where
  id : Nat
  title : String
  clientId : Nat
  contractId : Option Nat
  workerId : Option Nat
  status : ActivityStatus
  scheduledStart : Rat
  scheduledEnd : Rat
  durationHours : Rat
  location : String
  description : Option String
deriving DecidableEq, Repr

/-- Error taxonomy of lib/errors.js and middleware/errorHandler.js:
`validation` (400, also zod failures), `notFound` (404), `conflict` (409,
carrying the conflicting activities), `capacityExceeded` (the 400 AppError
"Insufficient hours" carrying the remaining hours), and `internal` for an
unhandled exception that the error handler surfaces as a 500. -/
inductive AppErr where
  | validation (msg : String)
  | notFound (resource : String)
  | conflict (conflicting : List Activity)
  | capacityExceeded (remaining : Rat)
  | internal (msg : String)
deriving DecidableEq, Repr

/-- Invoice row (prisma `Invoice`). -/
structure Invoice where
  id : Nat
  type : InvoiceType
  entityId : Nat
  totalAmount : Rat
  periodStart : Rat
  periodEnd : Rat
  status : InvoiceStatus
deriving DecidableEq, Repr

/-- The entity store: the tables the engine touches, plus a counter standing
for the store's id generator. -/
structure DB where
  clients : List Client
  workers : List Worker
  contracts : List Contract
  activities : List Activity
  invoices : List Invoice
  nextId : Nat
deriving DecidableEq, Repr

/-- services/activityService.js `calculateDuration`: millisecond difference
converted to hours. -/
def calculateDuration (startMs endMs : Rat) : Rat :=
  (endMs - startMs) / (1000 * 60 * 60)

/-- The activities counted by the contract hour ledger: linked to the contract
and with status VERIFIED or INVOICED (the prisma `include` filter of
`validateContractHours` and of contracts.js `getHoursRemaining`). -/
def contractLedgerActivities (db : DB) (contractId : Nat) : List Activity :=
  db.activities.filter fun a =>
    decide (a.contractId = some contractId ∧
      (a.status = ActivityStatus.VERIFIED ∨ a.status = ActivityStatus.INVOICED))

/-- `usedHours` as computed (identically) in `validateContractHours` and in
contracts.js `getHoursRemaining`: reduce over the ledger activities. -/
def contractUsedHours (db : DB) (contractId : Nat) : Rat :=
  (contractLedgerActivities db contractId).foldl (fun sum a => sum + a.durationHours) 0

/-- services/activityService.js `validateContractHours`. -/
def validateContractHours (db : DB) (contractId : Nat) (hours : Rat) :
    Except AppErr Unit :=
  match db.contracts.find? (fun c => c.id == contractId) with
  | none => .error (.notFound "Contract")
  | some contract =>
    let usedHours := contractUsedHours db contractId
    let remaining := contract.totalHours - usedHours
    if hours > remaining then .error (.capacityExceeded remaining) else .ok ()

/-- Response shape of contracts.js `getHoursRemaining` (the JS controller
names the last key `remaining`; the parallel TS route of the repository
names it `remainingHours`). -/
structure HoursRemaining where
  contractId : Nat
  totalHours : Rat
  usedHours : Rat
  remainingHours : Rat
deriving DecidableEq, Repr

/-- controllers/contracts.js `getHoursRemaining`. -/
def getHoursRemaining (db : DB) (id : Nat) : Except AppErr HoursRemaining :=
  match db.contracts.find? (fun c => c.id == id) with
  | none => .error (.notFound "Contract")
  | some contract =>
    let usedHours := contractUsedHours db id
    .ok { contractId := contract.id
          totalHours := contract.totalHours
          usedHours := usedHours
          remainingHours := contract.totalHours - usedHours }

/-- Result shape of `checkWorkerAvailability`. -/
structure AvailabilityResult where
  available : Bool
  conflictingActivities : List Activity
deriving DecidableEq, Repr

/-- services/activityService.js `checkWorkerAvailability`: the worker's
SCHEDULED / IN_PROGRESS activities whose interval touches `[scheduledStart,
scheduledEnd]` inclusively, minus the optionally excluded activity. -/
def checkWorkerAvailability (db : DB) (workerId : Nat)
    (scheduledStart scheduledEnd : Rat) (excludeActivityId : Option Nat) :
    AvailabilityResult :=
  let conflicting := db.activities.filter fun a =>
    decide (a.workerId = some workerId ∧
      excludeActivityId ≠ some a.id ∧
      (a.status = ActivityStatus.SCHEDULED ∨ a.status = ActivityStatus.IN_PROGRESS) ∧
      a.scheduledStart ≤ scheduledEnd ∧ scheduledStart ≤ a.scheduledEnd)
  { available := conflicting.length == 0
    conflictingActivities := conflicting }

/-- The prisma `findMany` filter of services/invoiceService.js
`generateClientInvoice`: the client's VERIFIED activities fully contained in
the period (`scheduledStart >= periodStart` and `scheduledEnd <= periodEnd`). -/
def selectClientActivities (db : DB) (clientId : Nat) (periodStart periodEnd : Rat) :
    List Activity :=
  db.activities.filter fun a =>
    decide (a.clientId = clientId ∧ a.status = ActivityStatus.VERIFIED ∧
      periodStart ≤ a.scheduledStart ∧ a.scheduledEnd ≤ periodEnd)

/-- services/invoiceService.js `generateClientInvoice`. A missing client makes
the JS crash on `client.billingRate` with a TypeError (an `internal` failure);
`client.billingRate || 0` is `Option.getD 0`; the final `updateMany` flips
every activity whose id was selected to INVOICED. Returns the created invoice,
the selected activities, and the updated store. -/
def generateClientInvoice (db : DB) (clientId : Nat) (periodStart periodEnd : Rat) :
    Except AppErr (Invoice × List Activity × DB) :=
  let activities := selectClientActivities db clientId periodStart periodEnd
  match db.clients.find? (fun c => c.id == clientId) with
  | none => .error (.internal "TypeError: Cannot read properties of null (reading billingRate)")
  | some client =>
    let billingRate := client.billingRate.getD 0
    let totalAmount := activities.foldl (fun sum a => sum + a.durationHours * billingRate) 0
    let invoice : Invoice :=
      { id := db.nextId
        type := InvoiceType.CLIENT_BILL
        entityId := clientId
        totalAmount := totalAmount
        periodStart := periodStart
        periodEnd := periodEnd
        status := InvoiceStatus.DRAFT }
    let billedIds := activities.map (fun a => a.id)
    let db' : DB :=
      { db with
        invoices := db.invoices ++ [invoice]
        activities := db.activities.map fun a =>
          if billedIds.contains a.id then { a with status := ActivityStatus.INVOICED } else a
        nextId := db.nextId + 1 }
    .ok (invoice, activities, db')

/-- The prisma `findMany` filter of services/invoiceService.js
`generateWorkerPayout`: the worker's VERIFIED activities fully contained in
the period. -/
def selectWorkerActivities (db : DB) (workerId : Nat) (periodStart periodEnd : Rat) :
    List Activity :=
  db.activities.filter fun a =>
    decide (a.workerId = some workerId ∧ a.status = ActivityStatus.VERIFIED ∧
      periodStart ≤ a.scheduledStart ∧ a.scheduledEnd ≤ periodEnd)

/-- services/invoiceService.js `generateWorkerPayout`. A missing worker makes
the JS crash on `worker.hourlyRate` (an `internal` failure). No activity is
modified. Returns the invoice, the selected activities, the summed hours and
the updated store. -/
def generateWorkerPayout (db : DB) (workerId : Nat) (periodStart periodEnd : Rat) :
    Except AppErr (Invoice × List Activity × Rat × DB) :=
  let activities := selectWorkerActivities db workerId periodStart periodEnd
  match db.workers.find? (fun w => w.id == workerId) with
  | none => .error (.internal "TypeError: Cannot read properties of null (reading hourlyRate)")
  | some worker =>
    let hourlyRate := worker.hourlyRate
    let totalHours := activities.foldl (fun sum a => sum + a.durationHours) 0
    let totalAmount := totalHours * hourlyRate
    let invoice : Invoice :=
      { id := db.nextId
        type := InvoiceType.WORKER_PAYOUT
        entityId := workerId
        totalAmount := totalAmount
        periodStart := periodStart
        periodEnd := periodEnd
        status := InvoiceStatus.DRAFT }
    let db' : DB :=
      { db with
        invoices := db.invoices ++ [invoice]
        nextId := db.nextId + 1 }
    .ok (invoice, activities, totalHours, db')

/-- controllers/invoices.js `generateClientInvoice`: `validateInvoice` (the
zod `invoiceSchema` with its `periodEnd > periodStart` refinement) guards the
service call; a failed refinement is a 400 validation error raised before the
service runs. -/
def generateClientInvoiceEndpoint (db : DB) (entityId : Nat)
    (periodStart periodEnd : Rat) : Except AppErr (Invoice × DB) :=
  if decide (periodStart < periodEnd) then
    match generateClientInvoice db entityId periodStart periodEnd with
    | .ok (invoice, _, db') => .ok (invoice, db')
    | .error e => .error e
  else .error (.validation "Period end date must be after period start date")

/-- controllers/invoices.js `generateWorkerPayout`, same zod guard. -/
def generateWorkerPayoutEndpoint (db : DB) (entityId : Nat)
    (periodStart periodEnd : Rat) : Except AppErr (Invoice × DB) :=
  if decide (periodStart < periodEnd) then
    match generateWorkerPayout db entityId periodStart periodEnd with
    | .ok (invoice, _, _, db') => .ok (invoice, db')
    | .error e => .error e
  else .error (.validation "Period end date must be after period start date")

/-- Request body for creating/updating an Activity, after zod coercion.
An outer `none` means the key was absent from the body (zod `.optional()`,
left untouched by prisma on update); `some none` is an explicit JSON null. -/
structure ActivityInput where
  title : String
  contractId : Option (Option Nat)
  clientId : Nat
  workerId : Option (Option Nat)
  scheduledStart : Rat
  scheduledEnd : Rat
  location : String
  description : Option (Option String)
deriving DecidableEq, Repr

/-- lib/validations.js `validateActivity`: the zod `activitySchema` — nonempty
title and location, required clientId and dates, and the refinement
`scheduledEnd > scheduledStart`. Uuid well-formedness is abstracted away by
the `Nat` id model. -/
def validateActivity (input : ActivityInput) : Except AppErr ActivityInput :=
  if decide (1 ≤ input.title.length ∧ 1 ≤ input.location.length ∧
      input.scheduledStart < input.scheduledEnd) then
    .ok input
  else .error (.validation "Validation failed")

/-- The conditional ledger check `if (data.contractId) await
validateContractHours(data.contractId, durationHours)` shared by `create`
and `update`: a present, non-null (truthy) contractId triggers the check. -/
def contractCheck (db : DB) (contractId : Option Nat) (hours : Rat) :
    Except AppErr Unit :=
  match contractId with
  | some cid => validateContractHours db cid hours
  | none => .ok ()

/-- controllers/activities.js `create`: validate, derive `durationHours`, run
the ledger check when a (non-null) contractId is supplied, then persist with
status UNASSIGNED. The JS truthiness test `if (data.contractId)` passes only
for a present, non-null id, hence `Option.join`. -/
def createActivity (db : DB) (input : ActivityInput) : Except AppErr (Activity × DB) :=
  match validateActivity input with
  | .error e => .error e
  | .ok data =>
    match contractCheck db data.contractId.join
        (calculateDuration data.scheduledStart data.scheduledEnd) with
    | .error e => .error e
    | .ok _ =>
      let activity : Activity :=
        { id := db.nextId
          title := data.title
          clientId := data.clientId
          contractId := data.contractId.join
          workerId := data.workerId.join
          status := ActivityStatus.UNASSIGNED
          scheduledStart := data.scheduledStart
          scheduledEnd := data.scheduledEnd
          durationHours := calculateDuration data.scheduledStart data.scheduledEnd
          location := data.location
          description := data.description.join }
      .ok (activity, { db with
        activities := db.activities ++ [activity]
        nextId := db.nextId + 1 })

/-- controllers/activities.js `update`: validate the full payload, recompute
`durationHours`, re-run the ledger check against the submitted contractId (the
check precedes the store update, so it fires even before a missing activity is
noticed), then overwrite the row; `status` is never part of the payload. An
absent optional key leaves the stored field unchanged. -/
def updateActivity (db : DB) (id : Nat) (input : ActivityInput) :
    Except AppErr (Activity × DB) :=
  match validateActivity input with
  | .error e => .error e
  | .ok data =>
    match contractCheck db data.contractId.join
        (calculateDuration data.scheduledStart data.scheduledEnd) with
    | .error e => .error e
    | .ok _ =>
      match db.activities.find? (fun a => a.id == id) with
      | none => .error (.notFound "Activity")
      | some a =>
        let a' : Activity :=
          { a with
            title := data.title
            clientId := data.clientId
            contractId := data.contractId.getD a.contractId
            workerId := data.workerId.getD a.workerId
            scheduledStart := data.scheduledStart
            scheduledEnd := data.scheduledEnd
            durationHours := calculateDuration data.scheduledStart data.scheduledEnd
            location := data.location
            description := data.description.getD a.description }
        .ok (a', { db with
          activities := db.activities.map fun b => if b.id == id then a' else b })

/-- controllers/activities.js `assignWorker`. The body's `workerId` is
`some (some w)` (assign), `some none` (explicit null: clear), or `none`
(key absent: prisma leaves `workerId` untouched while the falsy test still
sets the status to UNASSIGNED). Availability is checked only when assigning,
excluding the activity itself; a conflict is a 409 carrying the conflicting
activities. -/
def assignWorker (db : DB) (activityId : Nat) (workerId : Option (Option Nat)) :
    Except AppErr (Activity × DB) :=
  match db.activities.find? (fun a => a.id == activityId) with
  | none => .error (.notFound "Activity")
  | some activity =>
    match workerId with
    | some (some w) =>
      let availability :=
        checkWorkerAvailability db w activity.scheduledStart activity.scheduledEnd
          (some activityId)
      if availability.available then
        let a' := { activity with
          workerId := some w
          status := ActivityStatus.SCHEDULED }
        .ok (a', { db with
          activities := db.activities.map fun b => if b.id == activityId then a' else b })
      else .error (.conflict availability.conflictingActivities)
    | some none =>
      let a' := { activity with
        workerId := none
        status := ActivityStatus.UNASSIGNED }
      .ok (a', { db with
        activities := db.activities.map fun b => if b.id == activityId then a' else b })
    | none =>
      let a' := { activity with status := ActivityStatus.UNASSIGNED }
      .ok (a', { db with
        activities := db.activities.map fun b => if b.id == activityId then a' else b })

/-- controllers/activities.js `updateStatus` (the PATCH /status route): writes
the requested status directly through `prisma.activity.update`, with no check
of the current status (`deductContractHours`, called on VERIFIED, is a no-op
in the source). -/
def updateStatus (db : DB) (id : Nat) (status : ActivityStatus) :
    Except AppErr (Activity × DB) :=
  match db.activities.find? (fun a => a.id == id) with
  | none => .error (.notFound "Activity")
  | some a =>
    let a' := { a with status := status }
    .ok (a', { db with
      activities := db.activities.map fun b => if b.id == id then a' else b })

/-! ## Helper lemmas -/

/-- A JS `reduce((s, a) => s + f(a), init)` is `init` plus the sum of the
mapped list. -/
theorem foldl_add_eq_sum (f : Activity → Rat) :
    ∀ (l : List Activity) (init : Rat),
      l.foldl (fun sum a => sum + f a) init = init + (l.map f).sum := by
  intro l
  induction l with
  | nil => intro init; simp
  | cons a t ih =>
    intro init
    rw [List.foldl_cons, ih, List.map_cons, List.sum_cons]
    ring

theorem option_join_some {α : Type} (x : Option α) : (some x).join = x := rfl

/-- Membership in the ledger filter, spelled out. -/
theorem mem_contractLedgerActivities (db : DB) (cid : Nat) (a : Activity) :
    a ∈ contractLedgerActivities db cid ↔
      a ∈ db.activities ∧ a.contractId = some cid ∧
        (a.status = ActivityStatus.VERIFIED ∨ a.status = ActivityStatus.INVOICED) := by
  simp [contractLedgerActivities, List.mem_filter]

/-- The reduce in the ledger equals the sum over the filtered activities. -/
theorem contractUsedHours_eq_sum (db : DB) (cid : Nat) :
    contractUsedHours db cid =
      ((contractLedgerActivities db cid).map (fun a => a.durationHours)).sum := by
  rw [contractUsedHours, foldl_add_eq_sum, zero_add]

/-- Membership in the client-billing selection, spelled out. -/
theorem mem_selectClientActivities (db : DB) (clientId : Nat) (ps pe : Rat) (a : Activity) :
    a ∈ selectClientActivities db clientId ps pe ↔
      a ∈ db.activities ∧ a.clientId = clientId ∧ a.status = ActivityStatus.VERIFIED ∧
        ps ≤ a.scheduledStart ∧ a.scheduledEnd ≤ pe := by
  simp [selectClientActivities, List.mem_filter, and_assoc]

/-- Membership in the worker-payout selection, spelled out. -/
theorem mem_selectWorkerActivities (db : DB) (workerId : Nat) (ps pe : Rat) (a : Activity) :
    a ∈ selectWorkerActivities db workerId ps pe ↔
      a ∈ db.activities ∧ a.workerId = some workerId ∧ a.status = ActivityStatus.VERIFIED ∧
        ps ≤ a.scheduledStart ∧ a.scheduledEnd ≤ pe := by
  simp [selectWorkerActivities, List.mem_filter, and_assoc]

/-- An activity that survives the `updateMany` status flip with a status other
than INVOICED was already in the table and was not among the billed ids. -/
theorem mem_of_mem_flip (acts : List Activity) (billed : List Nat) (a : Activity)
    (hmem : a ∈ acts.map fun b =>
      if billed.contains b.id then { b with status := ActivityStatus.INVOICED } else b)
    (hst : a.status ≠ ActivityStatus.INVOICED) :
    a ∈ acts ∧ a.id ∉ billed := by
  rw [List.mem_map] at hmem
  obtain ⟨b, hb, hba⟩ := hmem
  by_cases hcon : billed.contains b.id = true
  · rw [if_pos hcon] at hba
    exact absurd (by rw [← hba]) hst
  · rw [if_neg hcon] at hba
    subst hba
    simp at hcon
    exact ⟨hb, hcon⟩

/-- Everything a successful `generateClientInvoice` run determines: the
selection, the untouched client table, the status flip, and the invoice's
rate-weighted total. -/
theorem generateClientInvoice_ok_elim (db : DB) (clientId : Nat) (ps pe : Rat)
    (inv : Invoice) (sel : List Activity) (db1 : DB)
    (h : generateClientInvoice db clientId ps pe = .ok (inv, sel, db1)) :
    sel = selectClientActivities db clientId ps pe ∧
    db1.clients = db.clients ∧
    db1.activities = db.activities.map (fun a =>
      if (sel.map (fun b => b.id)).contains a.id
      then { a with status := ActivityStatus.INVOICED } else a) ∧
    (∃ client, db.clients.find? (fun c => c.id == clientId) = some client ∧
      inv.status = InvoiceStatus.DRAFT ∧
      inv.totalAmount = (sel.map (fun a => a.durationHours * client.billingRate.getD 0)).sum) := by
  unfold generateClientInvoice at h
  cases hfind : db.clients.find? (fun c => c.id == clientId) with
  | none => rw [hfind] at h; cases h
  | some client =>
    rw [hfind] at h
    simp only [Except.ok.injEq, Prod.mk.injEq] at h
    obtain ⟨hinv, hsel, hdb⟩ := h
    subst hsel
    refine ⟨rfl, by rw [← hdb], by rw [← hdb], client, rfl, by rw [← hinv], ?_⟩
    rw [← hinv]
    show List.foldl _ 0 _ = _
    rw [foldl_add_eq_sum, zero_add]

/-- Unpacking a successful zod validation of an activity payload. -/
theorem validateActivity_ok_elim (input data : ActivityInput)
    (h : validateActivity input = .ok data) :
    data = input ∧ 1 ≤ input.title.length ∧ 1 ≤ input.location.length ∧
      input.scheduledStart < input.scheduledEnd := by
  unfold validateActivity at h
  split at h
  · next hcond =>
    injection h with h'
    exact ⟨h'.symm, by simpa using hcond⟩
  · cases h

/-- zod rejects a payload whose end does not lie strictly after its start. -/
theorem validateActivity_reject (input : ActivityInput)
    (hend : input.scheduledEnd ≤ input.scheduledStart) :
    validateActivity input = .error (.validation "Validation failed") := by
  unfold validateActivity
  rw [if_neg]
  simp only [decide_eq_true_eq, not_and]
  intro _ _
  exact not_lt.mpr hend

/-! ## Test fixtures: small concrete stores used by witnesses and
counterexamples (the §8 example data: billingRate 50, a 4-hour VERIFIED
activity, a 10-hour contract). -/

def clientW : Client := { id := 1, name := "Acme", billingRate := some 50 }

def workerW : Worker := { id := 2, name := "Pat", hourlyRate := 30 }

def contractW : Contract := { id := 3, clientId := 1, totalHours := 10 }

def activityW : Activity :=
  { id := 10, title := "Install", clientId := 1, contractId := some 3, workerId := some 2,
    status := ActivityStatus.VERIFIED, scheduledStart := 0, scheduledEnd := 14400000,
    durationHours := 4, location := "Site", description := none }

def dbW1 : DB :=
  { clients := [clientW], workers := [workerW], contracts := [contractW]
    activities := [activityW], invoices := [], nextId := 100 }

def actX1 : Activity :=
  { id := 10, title := "A1", clientId := 1, contractId := none, workerId := some 2,
    status := ActivityStatus.VERIFIED, scheduledStart := 0, scheduledEnd := 3600000,
    durationHours := 1, location := "Site", description := none }

def actX2 : Activity :=
  { id := 11, title := "A2", clientId := 1, contractId := none, workerId := some 2,
    status := ActivityStatus.VERIFIED, scheduledStart := 3600000, scheduledEnd := 7200000,
    durationHours := 1, location := "Site", description := none }

/-- Two adjacent one-hour VERIFIED activities of the same client. -/
def dbX1 : DB :=
  { clients := [clientW], workers := [workerW], contracts := []
    activities := [actX1, actX2], invoices := [], nextId := 100 }

/-- The result of the first billing run over `dbW1`. -/
def run1W : Invoice × List Activity × DB :=
  (generateClientInvoice dbW1 1 0 14400000).toOption.getD
    (⟨0, InvoiceType.CLIENT_BILL, 0, 0, 0, 0, InvoiceStatus.DRAFT⟩, [], dbW1)

def actC3 : Activity :=
  { id := 5, title := "Fresh", clientId := 1, contractId := none, workerId := none,
    status := ActivityStatus.UNASSIGNED, scheduledStart := 0, scheduledEnd := 3600000,
    durationHours := 1, location := "Site", description := none }

def dbC3 : DB :=
  { clients := [clientW], workers := [workerW], contracts := []
    activities := [actC3], invoices := [], nextId := 50 }

def dbC4 : DB :=
  { clients := [clientW], workers := [], contracts := [contractW]
    activities := [activityW], invoices := [], nextId := 60 }

def dbC7 : DB :=
  { clients := [], workers := [], contracts := [], activities := [], invoices := []
    nextId := 0 }

def inC8 : ActivityInput :=
  { title := "New", contractId := none, clientId := 1, workerId := some (some 7),
    scheduledStart := 0, scheduledEnd := 3600000, location := "Site", description := none }

def inOk9 : ActivityInput :=
  { title := "Visit", contractId := none, clientId := 1, workerId := none,
    scheduledStart := 0, scheduledEnd := 3600000, location := "Site", description := none }

def inBad9 : ActivityInput :=
  { title := "Visit", contractId := none, clientId := 1, workerId := none,
    scheduledStart := 3600000, scheduledEnd := 0, location := "Site", description := none }

/-- A six-hour VERIFIED activity consuming most of the ten-hour contract. -/
def activityX10 : Activity :=
  { id := 12, title := "Big", clientId := 1, contractId := some 3, workerId := none,
    status := ActivityStatus.VERIFIED, scheduledStart := 0, scheduledEnd := 21600000,
    durationHours := 6, location := "Site", description := none }

def dbW10 : DB :=
  { clients := [clientW], workers := [], contracts := [contractW]
    activities := [activityX10], invoices := [], nextId := 200 }

/-- A payload re-submitting `activityX10` unchanged. -/
def inX10 : ActivityInput :=
  { title := "Big", contractId := some (some 3), clientId := 1, workerId := none,
    scheduledStart := 0, scheduledEnd := 21600000, location := "Site", description := none }

/-! ## Claims -/

/-- C5: for every worker, interval and optional excluded activity,
`checkWorkerAvailability` reports a conflict exactly for the worker's other
activities in status SCHEDULED or IN_PROGRESS satisfying
`existing.scheduledStart <= end` and `existing.scheduledEnd >= start`
(inclusive on both bounds), `available` is true iff that conflict set is
empty, and the conflicting set is returned. -/
theorem checkWorkerAvailability_spec (db : DB) (workerId : Nat) (s e : Rat)
    (ex : Option Nat) :
    (∀ a, a ∈ (checkWorkerAvailability db workerId s e ex).conflictingActivities ↔
      (a ∈ db.activities ∧ a.workerId = some workerId ∧ ex ≠ some a.id ∧
        (a.status = ActivityStatus.SCHEDULED ∨ a.status = ActivityStatus.IN_PROGRESS) ∧
        a.scheduledStart ≤ e ∧ s ≤ a.scheduledEnd)) ∧
    ((checkWorkerAvailability db workerId s e ex).available = true ↔
      (checkWorkerAvailability db workerId s e ex).conflictingActivities = []) := by
  constructor
  · intro a
    simp [checkWorkerAvailability, List.mem_filter, and_assoc]
  · simp [checkWorkerAvailability, List.length_eq_zero]

/-- C4: for every existing contract, `getHoursRemaining` returns the
contract's id and totalHours, `usedHours` equal to the summed durationHours of
exactly the contract's VERIFIED/INVOICED activities (scheduled, in-progress
and done activities contribute nothing), and the remaining hours as total
minus used; and `validateContractHours` fails with CapacityExceeded exactly
when the requested hours exceed totalHours minus usedHours. -/
theorem hoursRemaining_spec (db : DB) (cid : Nat) (contract : Contract)
    (hc : db.contracts.find? (fun c => c.id == cid) = some contract) :
    ∃ r, getHoursRemaining db cid = .ok r ∧
      r.contractId = contract.id ∧
      r.totalHours = contract.totalHours ∧
      r.usedHours = ((contractLedgerActivities db cid).map (fun a => a.durationHours)).sum ∧
      (∀ a, a ∈ contractLedgerActivities db cid ↔
        a ∈ db.activities ∧ a.contractId = some cid ∧
          (a.status = ActivityStatus.VERIFIED ∨ a.status = ActivityStatus.INVOICED)) ∧
      r.remainingHours = r.totalHours - r.usedHours ∧
      (∀ h : Rat, (∃ rem, validateContractHours db cid h = .error (.capacityExceeded rem)) ↔
        contract.totalHours - r.usedHours < h) := by
  refine ⟨_, by rw [getHoursRemaining, hc], rfl, rfl, contractUsedHours_eq_sum db cid,
    mem_contractLedgerActivities db cid, rfl, ?_⟩
  intro h
  by_cases hlt : contract.totalHours - contractUsedHours db cid < h
  · simp [validateContractHours, hc, hlt]
  · simp [validateContractHours, hc, hlt]

/-- Witness for C4 on the §8 fixture: contract of 10 hours with one VERIFIED
4-hour activity. -/
theorem hoursRemaining_spec_witness :
    ∃ r, getHoursRemaining dbC4 3 = .ok r ∧
      r.contractId = contractW.id ∧
      r.totalHours = contractW.totalHours ∧
      r.usedHours = ((contractLedgerActivities dbC4 3).map (fun a => a.durationHours)).sum ∧
      r.remainingHours = r.totalHours - r.usedHours := by
  obtain ⟨r, h1, h2, h3, h4, -, h5, -⟩ := hoursRemaining_spec dbC4 3 contractW rfl
  exact ⟨r, h1, h2, h3, h4, h5⟩

/-- C2: for every existing client and period with periodStart < periodEnd,
`generateClientInvoice` selects exactly the client's VERIFIED activities fully
contained in the period, creates a DRAFT invoice whose totalAmount is the sum
of durationHours times the client's billingRate (0 when unset), and flips
every selected activity's status to INVOICED. -/
theorem generateClientInvoice_spec (db : DB) (clientId : Nat) (ps pe : Rat)
    (client : Client)
    (hc : db.clients.find? (fun c => c.id == clientId) = some client)
    (_hper : ps < pe) :
    ∃ inv sel db', generateClientInvoice db clientId ps pe = .ok (inv, sel, db') ∧
      inv.status = InvoiceStatus.DRAFT ∧
      inv.totalAmount = (sel.map (fun a => a.durationHours * client.billingRate.getD 0)).sum ∧
      (∀ a, a ∈ sel ↔ a ∈ db.activities ∧ a.clientId = clientId ∧
        a.status = ActivityStatus.VERIFIED ∧ ps ≤ a.scheduledStart ∧ a.scheduledEnd ≤ pe) ∧
      db'.invoices = db.invoices ++ [inv] ∧
      (∀ b ∈ db'.activities, b.id ∈ sel.map (fun a => a.id) →
        b.status = ActivityStatus.INVOICED) := by
  unfold generateClientInvoice
  rw [hc]
  refine ⟨_, _, _, rfl, rfl, ?_, ?_, rfl, ?_⟩
  · rw [foldl_add_eq_sum, zero_add]
  · exact mem_selectClientActivities db clientId ps pe
  · intro b hb hid
    simp only [List.mem_map] at hb
    obtain ⟨a, ha, rfl⟩ := hb
    by_cases hcon :
        ((selectClientActivities db clientId ps pe).map (fun a => a.id)).contains a.id = true
    · rw [if_pos hcon]
    · rw [if_neg hcon] at hid
      simp at hcon
      simp only [List.mem_map] at hid
      obtain ⟨c, hcsel, hceq⟩ := hid
      exact absurd hceq (hcon c hcsel)

/-- Witness for C2 on the §8 fixture (billingRate 50, one 4-hour VERIFIED
activity inside the period). -/
theorem generateClientInvoice_spec_witness :
    ∃ inv sel db', generateClientInvoice dbW1 1 0 14400000 = .ok (inv, sel, db') ∧
      inv.status = InvoiceStatus.DRAFT ∧
      inv.totalAmount = (sel.map (fun a => a.durationHours * clientW.billingRate.getD 0)).sum ∧
      (∀ a, a ∈ sel ↔ a ∈ dbW1.activities ∧ a.clientId = 1 ∧
        a.status = ActivityStatus.VERIFIED ∧ 0 ≤ a.scheduledStart ∧
        a.scheduledEnd ≤ 14400000) ∧
      db'.invoices = dbW1.invoices ++ [inv] ∧
      (∀ b ∈ db'.activities, b.id ∈ sel.map (fun a => a.id) →
        b.status = ActivityStatus.INVOICED) :=
  generateClientInvoice_spec dbW1 1 0 14400000 clientW rfl (by norm_num)

/-- C1 (amended): after a successful `generateClientInvoice` run, no later
selection over any period reselects a previously billed activity, and
re-running over the same period selects nothing and produces an invoice with
totalAmount 0. (An overlapping-but-different period may still bill other,
not-previously-billed VERIFIED activities; see the counterexample.) -/
theorem clientInvoice_atMostOnce (db : DB) (clientId : Nat) (ps pe : Rat)
    (inv1 : Invoice) (sel1 : List Activity) (db1 : DB)
    (h1 : generateClientInvoice db clientId ps pe = .ok (inv1, sel1, db1)) :
    (∀ ps' pe' a, a ∈ selectClientActivities db1 clientId ps' pe' →
      a.id ∉ sel1.map (fun b => b.id)) ∧
    (∃ inv2 db2, generateClientInvoice db1 clientId ps pe = .ok (inv2, [], db2) ∧
      inv2.totalAmount = 0) := by
  obtain ⟨hsel1, hclients, hacts, -⟩ := generateClientInvoice_ok_elim db clientId ps pe _ _ _ h1
  have hre : ∀ ps' pe' a, a ∈ selectClientActivities db1 clientId ps' pe' →
      a ∈ db.activities ∧ a.id ∉ sel1.map (fun b => b.id) := by
    intro ps' pe' a ha
    rw [mem_selectClientActivities] at ha
    obtain ⟨hmem, _, hst, _, _⟩ := ha
    rw [hacts] at hmem
    exact mem_of_mem_flip db.activities _ a hmem (by rw [hst]; simp)
  refine ⟨fun ps' pe' a ha => (hre ps' pe' a ha).2, ?_⟩
  have hempty : selectClientActivities db1 clientId ps pe = [] := by
    rw [List.eq_nil_iff_forall_not_mem]
    intro a ha
    obtain ⟨hmem, hnin⟩ := hre ps pe a ha
    rw [mem_selectClientActivities] at ha
    obtain ⟨_, hcid, hst, hs, he⟩ := ha
    apply hnin
    rw [hsel1]
    exact List.mem_map_of_mem _ ((mem_selectClientActivities db clientId ps pe a).mpr
      ⟨hmem, hcid, hst, hs, he⟩)
  cases hfind : db.clients.find? (fun c => c.id == clientId) with
  | none =>
    exfalso
    unfold generateClientInvoice at h1
    rw [hfind] at h1
    cases h1
  | some client =>
    have hfind1 : db1.clients.find? (fun c => c.id == clientId) = some client := by
      rw [hclients]; exact hfind
    cases hrun : generateClientInvoice db1 clientId ps pe with
    | error e =>
      exfalso
      unfold generateClientInvoice at hrun
      rw [hfind1] at hrun
      cases hrun
    | ok r =>
      obtain ⟨inv2, sel2, db2⟩ := r
      obtain ⟨hs2, _, _, _, _, _, htot2⟩ :=
        generateClientInvoice_ok_elim db1 clientId ps pe _ _ _ hrun
      have hsel2 : sel2 = [] := by rw [hs2, hempty]
      subst hsel2
      refine ⟨inv2, db2, rfl, ?_⟩
      simpa using htot2

/-- Counterexample for C1 as stated: with two adjacent one-hour VERIFIED
activities, billing the period covering only the first and then re-running
over an overlapping, wider period yields a second invoice with totalAmount 50,
not 0 (the claim's "same (or any overlapping) period ... totalAmount == 0"
fails for the overlapping case). -/
theorem clientInvoice_overlap_cex :
    ((generateClientInvoice dbX1 1 0 3600000).toOption.bind fun r1 =>
      (generateClientInvoice r1.2.2 1 0 7200000).toOption.map fun r2 => r2.1.totalAmount)
      = some 50 ∧ ((50 : Rat) = 0) = False := by
  refine ⟨?_, by norm_num⟩
  cases hrun1 : generateClientInvoice dbX1 1 0 3600000 with
  | error e =>
    exfalso
    unfold generateClientInvoice at hrun1
    rw [show dbX1.clients.find? (fun c => c.id == 1) = some clientW from rfl] at hrun1
    cases hrun1
  | ok r1 =>
    obtain ⟨inv1, sel1, db1⟩ := r1
    obtain ⟨hsel1, hclients1, hacts1, -⟩ :=
      generateClientInvoice_ok_elim dbX1 1 0 3600000 _ _ _ hrun1
    have hids : sel1.map (fun b => b.id) = [10] := by rw [hsel1]; decide
    have hacts1' : db1.activities =
        [{ actX1 with status := ActivityStatus.INVOICED }, actX2] := by
      rw [hacts1, hids]; decide
    have hsel2 : selectClientActivities db1 1 0 7200000 = [actX2] := by
      unfold selectClientActivities
      rw [hacts1']
      decide
    simp only [Except.toOption, Option.bind]
    cases hrun2 : generateClientInvoice db1 1 0 7200000 with
    | error e =>
      exfalso
      unfold generateClientInvoice at hrun2
      rw [show db1.clients.find? (fun c => c.id == 1) = some clientW from
        by rw [hclients1]; rfl] at hrun2
      cases hrun2
    | ok r2 =>
      obtain ⟨inv2, sel2, db2⟩ := r2
      obtain ⟨hs2, -, -, client2, hfind2, -, htot2⟩ :=
        generateClientInvoice_ok_elim db1 1 0 7200000 _ _ _ hrun2
      have hcl2 : client2 = clientW := by
        rw [hclients1, show dbX1.clients.find? (fun c => c.id == 1) = some clientW from rfl]
          at hfind2
        exact (Option.some.inj hfind2).symm
      have hsel2' : sel2 = [actX2] := by rw [hs2]; exact hsel2
      simp only [Option.map_some', Option.some.injEq]
      rw [htot2, hsel2', hcl2]
      norm_num [actX2, clientW]

/-- Witness for C1 (amended) on the §8 fixture. -/
theorem clientInvoice_atMostOnce_witness :
    (∀ ps' pe' a, a ∈ selectClientActivities run1W.2.2 1 ps' pe' →
      a.id ∉ run1W.2.1.map (fun b => b.id)) ∧
    (∃ inv2 db2, generateClientInvoice run1W.2.2 1 0 14400000 = .ok (inv2, [], db2) ∧
      inv2.totalAmount = 0) :=
  clientInvoice_atMostOnce dbW1 1 0 14400000 run1W.1 run1W.2.1 run1W.2.2 rfl

/-- C6: for every existing worker and period, `generateWorkerPayout` selects
the worker's VERIFIED activities fully contained in the period, creates a
DRAFT invoice totalling durationHours times the worker's hourlyRate, and
leaves every activity untouched, so the same selection is returned by an
immediate later run. -/
theorem generateWorkerPayout_spec (db : DB) (workerId : Nat) (ps pe : Rat)
    (worker : Worker)
    (hw : db.workers.find? (fun w => w.id == workerId) = some worker)
    (_hper : ps < pe) :
    ∃ inv sel totalHours db',
      generateWorkerPayout db workerId ps pe = .ok (inv, sel, totalHours, db') ∧
      inv.status = InvoiceStatus.DRAFT ∧
      inv.totalAmount = (sel.map (fun a => a.durationHours * worker.hourlyRate)).sum ∧
      (∀ a, a ∈ sel ↔ a ∈ db.activities ∧ a.workerId = some workerId ∧
        a.status = ActivityStatus.VERIFIED ∧ ps ≤ a.scheduledStart ∧ a.scheduledEnd ≤ pe) ∧
      db'.activities = db.activities ∧
      selectWorkerActivities db' workerId ps pe = sel := by
  unfold generateWorkerPayout
  rw [hw]
  refine ⟨_, _, _, _, rfl, rfl, ?_, ?_, rfl, rfl⟩
  · rw [foldl_add_eq_sum, zero_add]
    exact (List.sum_map_mul_right _ _ _).symm
  · exact mem_selectWorkerActivities db workerId ps pe

/-- Witness for C6 on the §8 fixture (hourlyRate 30, one 4-hour VERIFIED
activity inside the period). -/
theorem generateWorkerPayout_spec_witness :
    ∃ inv sel totalHours db',
      generateWorkerPayout dbW1 2 0 14400000 = .ok (inv, sel, totalHours, db') ∧
      inv.status = InvoiceStatus.DRAFT ∧
      inv.totalAmount = (sel.map (fun a => a.durationHours * workerW.hourlyRate)).sum ∧
      (∀ a, a ∈ sel ↔ a ∈ dbW1.activities ∧ a.workerId = some 2 ∧
        a.status = ActivityStatus.VERIFIED ∧ 0 ≤ a.scheduledStart ∧
        a.scheduledEnd ≤ 14400000) ∧
      db'.activities = dbW1.activities ∧
      selectWorkerActivities db' 2 0 14400000 = sel :=
  generateWorkerPayout_spec dbW1 2 0 14400000 workerW rfl (by norm_num)

/-- C7: on a store with no client/worker 9, both invoice flows crash with the
unhandled null-dereference TypeError (surfaced as a 500 internal error), not
with a NotFound failure; the period check does fail Validation at the
controller before the service runs. In every error case the `Except.error`
result carries no store, so no invoice is created and no activity changes. -/
theorem invoiceFlow_missingTarget_bug :
    generateClientInvoice dbC7 9 0 3600000 =
      .error (.internal "TypeError: Cannot read properties of null (reading billingRate)") ∧
    generateWorkerPayout dbC7 9 0 3600000 =
      .error (.internal "TypeError: Cannot read properties of null (reading hourlyRate)") ∧
    ((generateClientInvoice dbC7 9 0 3600000 matches .error (.notFound _)) = false) ∧
    ((generateWorkerPayout dbC7 9 0 3600000 matches .error (.notFound _)) = false) ∧
    generateClientInvoiceEndpoint dbC7 9 3600000 0 =
      .error (.validation "Period end date must be after period start date") ∧
    generateWorkerPayoutEndpoint dbC7 9 3600000 0 =
      .error (.validation "Period end date must be after period start date") := by
  exact ⟨rfl, rfl, rfl, rfl, rfl, rfl⟩

/-- Counterexample for C3 as stated: `updateStatus` moves a freshly created
UNASSIGNED activity directly to INVOICED — no forward-only rejection exists. -/
theorem updateStatus_forward_cex :
    (updateStatus dbC3 5 ActivityStatus.INVOICED).toOption.map (fun r => r.1.status) =
      some ActivityStatus.INVOICED := rfl

/-- C3 (amended): `updateStatus` performs no transition validation at all:
for every existing activity and every requested status it succeeds and writes
the requested status verbatim (so INVOICED is directly reachable by a client
call), leaving unrelated activities untouched. -/
theorem updateStatus_spec (db : DB) (id : Nat) (st : ActivityStatus) (a : Activity)
    (h : db.activities.find? (fun b => b.id == id) = some a) :
    ∃ db', updateStatus db id st = .ok ({ a with status := st }, db') ∧
      (∀ b ∈ db'.activities, b.id = id → b.status = st) ∧
      (∀ b ∈ db'.activities, b.id ≠ id → b ∈ db.activities) := by
  unfold updateStatus
  rw [h]
  refine ⟨_, rfl, ?_, ?_⟩
  · intro b hb hbid
    simp only [List.mem_map] at hb
    obtain ⟨c, hc, hcb⟩ := hb
    by_cases hcc : (c.id == id) = true
    · rw [if_pos hcc] at hcb
      rw [← hcb]
    · rw [if_neg hcc] at hcb
      subst hcb
      simp at hcc
      exact absurd hbid hcc
  · intro b hb hbid
    simp only [List.mem_map] at hb
    obtain ⟨c, hc, hcb⟩ := hb
    by_cases hcc : (c.id == id) = true
    · rw [if_pos hcc] at hcb
      exfalso
      apply hbid
      rw [← hcb]
      simpa using List.find?_some h
    · rw [if_neg hcc] at hcb
      subst hcb
      exact hc

/-- Witness for C3 (amended): a concrete legal-looking transition also goes
straight through. -/
theorem updateStatus_spec_witness :
    ∃ db', updateStatus dbC3 5 ActivityStatus.DONE =
        .ok ({ actC3 with status := ActivityStatus.DONE }, db') ∧
      (∀ b ∈ db'.activities, b.id = 5 → b.status = ActivityStatus.DONE) ∧
      (∀ b ∈ db'.activities, b.id ≠ 5 → b ∈ dbC3.activities) :=
  updateStatus_spec dbC3 5 ActivityStatus.DONE actC3 rfl

/-- Counterexample for C8 as stated: `create` accepts a workerId in the
payload while persisting status UNASSIGNED, so a reachable activity has a
non-null workerId with status UNASSIGNED. -/
theorem create_unassigned_workerId_cex :
    (createActivity dbC3 inC8).toOption.map (fun r => (r.1.status, r.1.workerId)) =
      some (ActivityStatus.UNASSIGNED, some 7) := rfl

/-- C8 (amended): `assignWorker` does maintain the assignment relationship —
assigning a worker (under a clean availability check) sets workerId and
advances status to SCHEDULED, and clearing workerId with an explicit null
nulls workerId and reverts status to UNASSIGNED — but create/update/setStatus
do not enforce the global invariant (see the counterexample). -/
theorem assignWorker_spec (db : DB) (activityId w : Nat) (activity : Activity)
    (h : db.activities.find? (fun a => a.id == activityId) = some activity)
    (hav : (checkWorkerAvailability db w activity.scheduledStart activity.scheduledEnd
      (some activityId)).available = true) :
    (∃ db', assignWorker db activityId (some (some w)) =
      .ok ({ activity with workerId := some w, status := ActivityStatus.SCHEDULED }, db')) ∧
    (∃ db', assignWorker db activityId (some none) =
      .ok ({ activity with workerId := none, status := ActivityStatus.UNASSIGNED }, db')) := by
  unfold assignWorker
  rw [h]
  dsimp only
  constructor
  · rw [hav]
    exact ⟨_, rfl⟩
  · exact ⟨_, rfl⟩

/-- Witness for C8 (amended) on a conflict-free store. -/
theorem assignWorker_spec_witness :
    (∃ db', assignWorker dbC3 5 (some (some 2)) =
      .ok ({ actC3 with workerId := some 2, status := ActivityStatus.SCHEDULED }, db')) ∧
    (∃ db', assignWorker dbC3 5 (some none) =
      .ok ({ actC3 with workerId := none, status := ActivityStatus.UNASSIGNED }, db')) :=
  assignWorker_spec dbC3 5 2 actC3 rfl rfl

/-- C9: after any successful create or update the stored durationHours equals
(scheduledEnd − scheduledStart) expressed in hours, exactly; and both
operations reject a payload with scheduledEnd <= scheduledStart with a
Validation error. -/
theorem duration_spec :
    (∀ db input a db', createActivity db input = .ok (a, db') →
      a.durationHours = (a.scheduledEnd - a.scheduledStart) / (1000 * 60 * 60)) ∧
    (∀ db id input a db', updateActivity db id input = .ok (a, db') →
      a.durationHours = (a.scheduledEnd - a.scheduledStart) / (1000 * 60 * 60)) ∧
    (∀ db input, input.scheduledEnd ≤ input.scheduledStart →
      createActivity db input = .error (.validation "Validation failed")) ∧
    (∀ db id input, input.scheduledEnd ≤ input.scheduledStart →
      updateActivity db id input = .error (.validation "Validation failed")) := by
  refine ⟨?_, ?_, ?_, ?_⟩
  · intro db input a db' h
    unfold createActivity at h
    split at h
    · cases h
    · split at h
      · cases h
      · simp only [Except.ok.injEq, Prod.mk.injEq] at h
        obtain ⟨ha, -⟩ := h
        subst ha
        rfl
  · intro db id input a db' h
    unfold updateActivity at h
    split at h
    · cases h
    · split at h
      · cases h
      · split at h
        · cases h
        · simp only [Except.ok.injEq, Prod.mk.injEq] at h
          obtain ⟨ha, -⟩ := h
          subst ha
          rfl
  · intro db input hend
    unfold createActivity
    rw [validateActivity_reject input hend]
  · intro db id input hend
    unfold updateActivity
    rw [validateActivity_reject input hend]

/-- Witness for C9: a rejected reversed range and an accepted one-hour range
whose stored duration is exactly one hour. -/
theorem duration_spec_witness :
    createActivity dbC3 inBad9 = .error (.validation "Validation failed") ∧
    (∃ a db', createActivity dbC3 inOk9 = .ok (a, db') ∧
      a.durationHours = (a.scheduledEnd - a.scheduledStart) / (1000 * 60 * 60)) := by
  constructor
  · exact duration_spec.2.2.1 dbC3 inBad9 (by norm_num [inBad9])
  · refine ⟨_, _, rfl, duration_spec.1 dbC3 inOk9 _ _ rfl⟩

/-- C10 (implicit): `update`'s capacity check counts the edited activity's own
hours: the ledger sum ranges over all VERIFIED/INVOICED activities of the
contract with no self-exclusion (second conjunct: any such activity's own
duration is included in usedHours), and the update is rejected with
CapacityExceeded exactly when the requested duration exceeds totalHours minus
that self-inclusive usedHours — so re-submitting an unchanged duration d
fails whenever d > totalHours − usedHours. -/
theorem updateActivity_capacity_spec (db : DB) (id : Nat) (input : ActivityInput)
    (cid : Nat) (contract : Contract)
    (hv : validateActivity input = .ok input)
    (hcid : input.contractId = some (some cid))
    (hk : db.contracts.find? (fun c => c.id == cid) = some contract) :
    ((∃ rem, updateActivity db id input = .error (.capacityExceeded rem)) ↔
      contract.totalHours - contractUsedHours db cid <
        calculateDuration input.scheduledStart input.scheduledEnd) ∧
    (∀ a ∈ db.activities, a.contractId = some cid →
      (a.status = ActivityStatus.VERIFIED ∨ a.status = ActivityStatus.INVOICED) →
      (∀ b ∈ db.activities, 0 ≤ b.durationHours) →
      a.durationHours ≤ contractUsedHours db cid) := by
  constructor
  · unfold updateActivity
    simp only [hv, hcid, option_join_some]
    unfold contractCheck validateContractHours
    dsimp only
    rw [hk]
    dsimp only
    by_cases hgt : contract.totalHours - contractUsedHours db cid <
        calculateDuration input.scheduledStart input.scheduledEnd
    · rw [if_pos hgt]
      simp only [hgt, iff_true]
      exact ⟨_, rfl⟩
    · rw [if_neg hgt]
      simp only [hgt, iff_false, not_exists]
      intro rem h
      cases hfind : db.activities.find? (fun a => a.id == id) with
      | none => rw [hfind] at h; cases h
      | some b => rw [hfind] at h; cases h
  · intro a ha hac hst hnn
    rw [contractUsedHours_eq_sum]
    apply List.single_le_sum
    · intro x hx
      rw [List.mem_map] at hx
      obtain ⟨b, hb, rfl⟩ := hx
      exact hnn b ((mem_contractLedgerActivities db cid b).mp hb).1
    · exact List.mem_map_of_mem _
        ((mem_contractLedgerActivities db cid a).mpr ⟨ha, hac, hst⟩)

/-- Witness for C10: re-submitting the unchanged six-hour activity against the
ten-hour contract (usedHours already 6, remaining 4) trips the check. -/
theorem updateActivity_capacity_witness :
    ((∃ rem, updateActivity dbW10 12 inX10 = .error (.capacityExceeded rem)) ↔
      contractW.totalHours - contractUsedHours dbW10 3 <
        calculateDuration inX10.scheduledStart inX10.scheduledEnd) ∧
    (∀ a ∈ dbW10.activities, a.contractId = some 3 →
      (a.status = ActivityStatus.VERIFIED ∨ a.status = ActivityStatus.INVOICED) →
      (∀ b ∈ dbW10.activities, 0 ≤ b.durationHours) →
      a.durationHours ≤ contractUsedHours dbW10 3) :=
  updateActivity_capacity_spec dbW10 12 inX10 3 contractW rfl rfl rfl

end Gecko
